import Mathlib

/-!
Verification of the image-optimization pipeline.

Shallow embedding of the repository's processing logic:
the two-stage dispatcher (functions/initial-processor, .mjs and .ts),
the per-size workers (functions/size-processor index.mjs, the .ts variant,
and the WebP-only variant), and the single-stage processors
(functions/image-processor/index.mjs and lambda/image-processor/index.ts).

External capabilities (S3 get, SQS send, the sharp codec) are abstracted as
function parameters; floating-point arithmetic of the JS sources is embedded
as exact rational arithmetic with explicit half-up rounding.  Each handler is
embedded as a pure function from its inputs and oracles to the list of
storage writes it performs (plus, for the dispatcher, the list of queue
sends it attempts and its returned result).
-/

namespace ImageOpt

/-- Compression parameters returned by the quality policy of a component. -/
structure QualityConfig where
  quality : Nat
  effort : Nat
  deriving Repr, DecidableEq

/-- One call to the external codec: output format, resize target box
(width and height handed to sharp resize), and encoder quality and effort. -/
structure EncodeArgs where
  fmt : String
  width : Nat
  height : Nat
  quality : Nat
  effort : Nat
  deriving Repr, DecidableEq, Inhabited

/-- The info object sharp returns alongside the encoded buffer. -/
structure EncodeInfo where
  width : Nat
  height : Nat
  deriving Repr, DecidableEq, Inhabited

/-- Result of one encode call: encoded bytes plus the info object. -/
structure EncodeResult where
  data : List Nat
  info : EncodeInfo
  deriving Repr, DecidableEq

/-- An abstract encoder: what sharp resize plus webp or avif encoding does to
the fetched source bytes.  The source buffer is captured by the closure. -/
def Encoder : Type := EncodeArgs → EncodeResult

/-- One PutObject call made by a worker, with the encode call that produced
its body kept as provenance in the encArgs field. -/
structure PutAction where
  bucket : String
  key : String
  body : List Nat
  contentType : String
  metadata : List (String × String)
  cacheControl : String
  encArgs : EncodeArgs
  deriving Repr, DecidableEq, Inhabited

/-- A queued processing task (the JSON message body of the two-stage
pipeline): source location, target width and the original dimensions. -/
structure Task where
  sourceBucket : String
  sourceKey : String
  targetSize : Nat
  originalWidth : Nat
  originalHeight : Nat
  deriving Repr, DecidableEq

/-- Decoded source-image metadata (sharp metadata width and height). -/
structure Meta where
  width : Nat
  height : Nat
  deriving Repr, DecidableEq

/-- One record of an S3 trigger event: bucket name and raw object key. -/
structure S3Record where
  bucketName : String
  objectKey : String
  deriving Repr, DecidableEq

/-- The plus-to-space normalization applied to the raw object key before
percent-decoding: key.replace of plus signs by spaces. -/
def plusToSpace (s : String) : String :=
  String.mk (s.data.map (fun c => if c == '+' then ' ' else c))

/-- Math.round of the nonnegative rational num / den, embedded exactly:
round half up, as a natural-number computation.  This models the JS
computation Math.round(targetSize * (originalHeight / originalWidth)). -/
def roundHalfUp (num den : Nat) : Nat :=
  (2 * num + den) / (2 * den)

/-- Core of the JS replace with regex of a dot followed by one or more
characters that are neither dot nor slash, anchored at the end: if the
reversed key starts with a nonempty run of non-dot non-slash characters
followed by a dot, that dot and the run are replaced by repl; otherwise the
key is unchanged. -/
def extReplaceCore (k repl : List Char) : List Char :=
  let r := k.reverse
  let ext := r.takeWhile (fun c => !(c == '.') && !(c == '/'))
  let rest := r.dropWhile (fun c => !(c == '.') && !(c == '/'))
  match rest with
  | [] => k
  | c :: base => if c == '.' && !ext.isEmpty then base.reverse ++ repl else k

/-- The key rewrite sourceKey.replace of the final-extension regex by repl
(repl is the literal replacement string, for example dot-webp). -/
def jsReplaceExt (k repl : String) : String :=
  String.mk (extReplaceCore k.data repl.data)

/-- Ascending insertion of one element, used to embed the JS numeric sort. -/
def insertAsc (x : Nat) : List Nat → List Nat
  | [] => [x]
  | y :: ys => if x ≤ y then x :: y :: ys else y :: insertAsc x ys

/-- The JS Array sort with comparator (a, b) => a - b: ascending numeric
sort, embedded as insertion sort (all catalogs are concrete literals, so
only the sorted value matters). -/
def sortAsc (l : List Nat) : List Nat := l.foldr insertAsc []

/-- The sequential send loop of the dispatcher: for each task, await one
queue send; the first send error aborts the loop (the exception propagates
out of the for loop).  Returns the loop outcome and the list of sends that
were actually attempted, in order. -/
def sendTasks (send : Task → Except String Unit) :
    List Task → Except String Unit × List Task
  | [] => (Except.ok (), [])
  | t :: rest =>
    match send t with
    | Except.ok _ =>
        let r := sendTasks send rest
        (r.1, t :: r.2)
    | Except.error e => (Except.error e, [t])

/-- Structural worker for the chunk grouping, with a fuel argument bounding
the number of loop iterations (the list length always suffices). -/
def chunksOf5Aux : Nat → List Nat → List (List Nat)
  | 0, _ => []
  | _, [] => []
  | fuel + 1, a :: rest => (a :: rest.take 4) :: chunksOf5Aux fuel (rest.drop 4)

/-- Grouping of the applicable sizes into chunks of CHUNK_SIZE = 5, as the
single-stage processor's for loop with i += CHUNK_SIZE and slice(i, i+5). -/
def chunksOf5 (l : List Nat) : List (List Nat) := chunksOf5Aux l.length l

end ImageOpt

namespace ImageOpt.SizeProcessor

/-- Quality policy of functions/size-processor/index.mjs. -/
def getQualityConfig (width : Nat) : QualityConfig :=
  if width ≤ 384 then { quality := 80, effort := 4 }
  else if width ≤ 1080 then { quality := 85, effort := 5 }
  else { quality := 90, effort := 6 }

/-- The PutObject calls of one size-processor (index.mjs) invocation on one
task: a WebP put always, and an AVIF put when targetSize is at least 640.
The AVIF encode uses effort plus 2. -/
def handlerPuts (E : Encoder) (processedBucket : String) (task : Task) :
    List PutAction :=
  let qualityConfig := getQualityConfig task.targetSize
  let targetHeight := roundHalfUp (task.targetSize * task.originalHeight) task.originalWidth
  let webpArgs : EncodeArgs :=
    { fmt := "webp", width := task.targetSize, height := targetHeight,
      quality := qualityConfig.quality, effort := qualityConfig.effort }
  let webpVersion := E webpArgs
  let webpPut : PutAction :=
    { bucket := processedBucket,
      key := "processed/w" ++ Nat.repr task.targetSize ++ "/"
               ++ jsReplaceExt task.sourceKey ".webp",
      body := webpVersion.data,
      contentType := "image/webp",
      metadata := [("width", Nat.repr webpVersion.info.width),
                   ("height", Nat.repr webpVersion.info.height),
                   ("quality", Nat.repr qualityConfig.quality)],
      cacheControl := "public, max-age=31536000, immutable",
      encArgs := webpArgs }
  if 640 ≤ task.targetSize then
    let avifArgs : EncodeArgs :=
      { fmt := "avif", width := task.targetSize, height := targetHeight,
        quality := qualityConfig.quality, effort := qualityConfig.effort + 2 }
    let avifVersion := E avifArgs
    [webpPut,
     { bucket := processedBucket,
       key := "processed/w" ++ Nat.repr task.targetSize ++ "/"
                ++ jsReplaceExt task.sourceKey ".avif",
       body := avifVersion.data,
       contentType := "image/avif",
       metadata := [("width", Nat.repr avifVersion.info.width),
                    ("height", Nat.repr avifVersion.info.height),
                    ("quality", Nat.repr qualityConfig.quality)],
       cacheControl := "public, max-age=31536000, immutable",
       encArgs := avifArgs }]
  else [webpPut]

/-- The size-processor handler: parses only Records[0], fetches the source
object, then performs the puts.  Fetch failure propagates as a thrown
error. -/
def handler (E : Encoder) (fetchBody : String → String → Except String Unit)
    (processedBucket : String) (records : List Task) :
    Except String (List PutAction × String) :=
  match records with
  | [] => Except.error "no record"
  | task :: _ =>
    match fetchBody task.sourceBucket task.sourceKey with
    | Except.error e => Except.error e
    | Except.ok _ =>
        Except.ok (handlerPuts E processedBucket task,
          "Size " ++ Nat.repr task.targetSize ++ " processed successfully")

end ImageOpt.SizeProcessor

namespace ImageOpt.SizeProcessorTs

/-- Quality policy of the size-processor index.ts variant: same three tiers
as index.mjs. -/
def getQualityConfig (width : Nat) : QualityConfig :=
  if width ≤ 384 then { quality := 80, effort := 4 }
  else if width ≤ 1080 then { quality := 85, effort := 5 }
  else { quality := 90, effort := 6 }

/-- The PutObject calls of one size-processor index.ts invocation: WebP
always, AVIF when targetSize is at least 640.  Unlike index.mjs, the AVIF
encode here uses the tier effort unchanged (no plus 2). -/
def handlerPuts (E : Encoder) (processedBucket : String) (task : Task) :
    List PutAction :=
  let qualityConfig := getQualityConfig task.targetSize
  let targetHeight := roundHalfUp (task.targetSize * task.originalHeight) task.originalWidth
  let webpArgs : EncodeArgs :=
    { fmt := "webp", width := task.targetSize, height := targetHeight,
      quality := qualityConfig.quality, effort := qualityConfig.effort }
  let webpVersion := E webpArgs
  let webpPut : PutAction :=
    { bucket := processedBucket,
      key := "processed/w" ++ Nat.repr task.targetSize ++ "/"
               ++ jsReplaceExt task.sourceKey ".webp",
      body := webpVersion.data,
      contentType := "image/webp",
      metadata := [("width", Nat.repr webpVersion.info.width),
                   ("height", Nat.repr webpVersion.info.height),
                   ("quality", Nat.repr qualityConfig.quality)],
      cacheControl := "public, max-age=31536000, immutable",
      encArgs := webpArgs }
  if 640 ≤ task.targetSize then
    let avifArgs : EncodeArgs :=
      { fmt := "avif", width := task.targetSize, height := targetHeight,
        quality := qualityConfig.quality, effort := qualityConfig.effort }
    let avifVersion := E avifArgs
    [webpPut,
     { bucket := processedBucket,
       key := "processed/w" ++ Nat.repr task.targetSize ++ "/"
                ++ jsReplaceExt task.sourceKey ".avif",
       body := avifVersion.data,
       contentType := "image/avif",
       metadata := [("width", Nat.repr avifVersion.info.width),
                    ("height", Nat.repr avifVersion.info.height),
                    ("quality", Nat.repr qualityConfig.quality)],
       cacheControl := "public, max-age=31536000, immutable",
       encArgs := avifArgs }]
  else [webpPut]

end ImageOpt.SizeProcessorTs

namespace ImageOpt.WebpOnlyProcessor

/-- Quality policy of the WebP-only size-processor variant: two tiers only,
both with effort 4. -/
def getQualityConfig (width : Nat) : QualityConfig :=
  if width ≤ 384 then { quality := 80, effort := 4 }
  else { quality := 85, effort := 4 }

/-- The PutObject calls of the WebP-only size-processor variant: a single
WebP put for every task, never an AVIF put. -/
def handlerPuts (E : Encoder) (processedBucket : String) (task : Task) :
    List PutAction :=
  let qualityConfig := getQualityConfig task.targetSize
  let targetHeight := roundHalfUp (task.targetSize * task.originalHeight) task.originalWidth
  let webpArgs : EncodeArgs :=
    { fmt := "webp", width := task.targetSize, height := targetHeight,
      quality := qualityConfig.quality, effort := qualityConfig.effort }
  let webpVersion := E webpArgs
  [{ bucket := processedBucket,
     key := "processed/w" ++ Nat.repr task.targetSize ++ "/"
              ++ jsReplaceExt task.sourceKey ".webp",
     body := webpVersion.data,
     contentType := "image/webp",
     metadata := [("width", Nat.repr webpVersion.info.width),
                  ("height", Nat.repr webpVersion.info.height),
                  ("quality", Nat.repr qualityConfig.quality)],
     cacheControl := "public, max-age=31536000, immutable",
     encArgs := webpArgs }]

end ImageOpt.WebpOnlyProcessor

namespace ImageOpt.ImageProcessor

/-- Next.js default device-class widths of the single-stage processor. -/
def DEVICE_SIZES : List Nat := [640, 750, 828, 1080, 1200, 1920, 2048, 3840]

/-- Next.js default thumbnail-class widths of the single-stage processor. -/
def IMAGE_SIZES : List Nat := [16, 32, 48, 64, 96, 128, 256, 384]

/-- The combined ascending catalog of the single-stage processor. -/
def ALL_SIZES : List Nat := sortAsc (IMAGE_SIZES ++ DEVICE_SIZES)

/-- Quality policy of functions/image-processor/index.mjs: same three tiers
as the size processor. -/
def getQualityConfig (width : Nat) : QualityConfig :=
  if width ≤ 384 then { quality := 80, effort := 4 }
  else if width ≤ 1080 then { quality := 85, effort := 5 }
  else { quality := 90, effort := 6 }

/-- The two uploads (WebP then AVIF, no width gate) the single-stage
processor performs for one target width.  Both carry a size metadata tag
equal to the encoded byte length; the upload key is rebuilt from the
version-map key, whose width part is the decimal rendering of the target
width.  The AVIF encode uses effort plus 2. -/
def versionPuts (E : Encoder) (processedBucket key : String)
    (originalWidth originalHeight targetWidth : Nat) : List PutAction :=
  let targetHeight := roundHalfUp (targetWidth * originalHeight) originalWidth
  let qualityConfig := getQualityConfig targetWidth
  let webpArgs : EncodeArgs :=
    { fmt := "webp", width := targetWidth, height := targetHeight,
      quality := qualityConfig.quality, effort := qualityConfig.effort }
  let webpVersion := E webpArgs
  let avifArgs : EncodeArgs :=
    { fmt := "avif", width := targetWidth, height := targetHeight,
      quality := qualityConfig.quality, effort := qualityConfig.effort + 2 }
  let avifVersion := E avifArgs
  [{ bucket := processedBucket,
     key := "processed/w" ++ Nat.repr targetWidth ++ "/"
              ++ jsReplaceExt key ".webp",
     body := webpVersion.data,
     contentType := "image/webp",
     metadata := [("width", Nat.repr webpVersion.info.width),
                  ("height", Nat.repr webpVersion.info.height),
                  ("size", Nat.repr webpVersion.data.length),
                  ("quality", Nat.repr qualityConfig.quality)],
     cacheControl := "public, max-age=31536000, immutable",
     encArgs := webpArgs },
   { bucket := processedBucket,
     key := "processed/w" ++ Nat.repr targetWidth ++ "/"
              ++ jsReplaceExt key ".avif",
     body := avifVersion.data,
     contentType := "image/avif",
     metadata := [("width", Nat.repr avifVersion.info.width),
                  ("height", Nat.repr avifVersion.info.height),
                  ("size", Nat.repr avifVersion.data.length),
                  ("quality", Nat.repr qualityConfig.quality)],
     cacheControl := "public, max-age=31536000, immutable",
     encArgs := avifArgs }]

/-- processImage of the single-stage processor: filter the catalog by the
original width, then process the applicable sizes in chunks of five,
uploading both formats for every width of each chunk.  Returns the uploads
in order together with processedCount (two per width). -/
def processImage (E : Encoder) (processedBucket key : String)
    (originalWidth originalHeight : Nat) : List PutAction × Nat :=
  let applicableSizes := ALL_SIZES.filter (fun size => size ≤ originalWidth)
  let puts := (chunksOf5 applicableSizes).flatMap (fun chunk =>
    chunk.flatMap (fun targetWidth =>
      versionPuts E processedBucket key originalWidth originalHeight targetWidth))
  (puts, 2 * applicableSizes.length)

/-- The single-stage handler: reads only Records[0], normalizes the key,
fetches the source and decodes its metadata (a failure there propagates as
a thrown error), then runs processImage. -/
def handler (E : Encoder) (fetchMeta : String → String → Except String Meta)
    (decodeURI : String → String) (processedBucket : String)
    (records : List S3Record) : Except String (List PutAction × Nat) :=
  match records with
  | [] => Except.error "no record"
  | record :: _ =>
    let bucket := record.bucketName
    let key := decodeURI (plusToSpace record.objectKey)
    match fetchMeta bucket key with
    | Except.error e => Except.error e
    | Except.ok metadata =>
        Except.ok (processImage E processedBucket key metadata.width metadata.height)

end ImageOpt.ImageProcessor

namespace ImageOpt.LambdaProcessor

/-- The combined catalog of lambda/image-processor/index.ts (same Next.js
defaults as the single-stage processor). -/
def ALL_SIZES : List Nat :=
  sortAsc ([16, 32, 48, 64, 96, 128, 256, 384]
    ++ [640, 750, 828, 1080, 1200, 1920, 2048, 3840])

/-- Quality policy of lambda/image-processor/index.ts: same three tiers. -/
def getQualityConfig (width : Nat) : QualityConfig :=
  if width ≤ 384 then { quality := 80, effort := 4 }
  else if width ≤ 1080 then { quality := 85, effort := 5 }
  else { quality := 90, effort := 6 }

/-- processImage plus the upload loop of lambda/image-processor/index.ts:
for every catalog width not exceeding the original width, a WebP and an
AVIF upload (no width gate), with width, height, size and quality metadata
tags; the AVIF encode uses effort plus 2. -/
def processPuts (E : Encoder) (processedBucket key : String)
    (originalWidth originalHeight : Nat) : List PutAction :=
  (ALL_SIZES.filter (fun size => size ≤ originalWidth)).flatMap
    (fun targetWidth =>
      let targetHeight := roundHalfUp (targetWidth * originalHeight) originalWidth
      let qualityConfig := getQualityConfig targetWidth
      let webpArgs : EncodeArgs :=
        { fmt := "webp", width := targetWidth, height := targetHeight,
          quality := qualityConfig.quality, effort := qualityConfig.effort }
      let webpVersion := E webpArgs
      let avifArgs : EncodeArgs :=
        { fmt := "avif", width := targetWidth, height := targetHeight,
          quality := qualityConfig.quality, effort := qualityConfig.effort + 2 }
      let avifVersion := E avifArgs
      [{ bucket := processedBucket,
         key := "processed/w" ++ Nat.repr targetWidth ++ "/"
                  ++ jsReplaceExt key ".webp",
         body := webpVersion.data,
         contentType := "image/webp",
         metadata := [("width", Nat.repr webpVersion.info.width),
                      ("height", Nat.repr webpVersion.info.height),
                      ("size", Nat.repr webpVersion.data.length),
                      ("quality", Nat.repr qualityConfig.quality)],
         cacheControl := "public, max-age=31536000, immutable",
         encArgs := webpArgs },
       { bucket := processedBucket,
         key := "processed/w" ++ Nat.repr targetWidth ++ "/"
                  ++ jsReplaceExt key ".avif",
         body := avifVersion.data,
         contentType := "image/avif",
         metadata := [("width", Nat.repr avifVersion.info.width),
                      ("height", Nat.repr avifVersion.info.height),
                      ("size", Nat.repr avifVersion.data.length),
                      ("quality", Nat.repr qualityConfig.quality)],
         cacheControl := "public, max-age=31536000, immutable",
         encArgs := avifArgs }])

end ImageOpt.LambdaProcessor

namespace ImageOpt.InitialProcessor

/-- Reduced device-class widths of functions/initial-processor/index.mjs. -/
def DEVICE_SIZES : List Nat := [640, 828, 1200, 1920]

/-- Reduced thumbnail-class widths of functions/initial-processor/index.mjs. -/
def IMAGE_SIZES : List Nat := [64, 128, 384]

/-- The combined ascending catalog of the dispatcher (index.mjs). -/
def ALL_SIZES : List Nat := sortAsc (IMAGE_SIZES ++ DEVICE_SIZES)

/-- The dispatcher's external capabilities: fetch-and-decode of the source
object's metadata, and one queue send. -/
structure DispatchEnv where
  fetchMeta : String → String → Except String Meta
  send : Task → Except String Unit

/-- The dispatcher handler (index.mjs): reads only Records[0], normalizes
the key, fetches metadata (failure propagates), filters the catalog by the
original width, builds one self-describing task per applicable size and
sends them sequentially (the first send failure aborts the loop and the
invocation rethrows).  Returns the invocation outcome (on success, the
applicable-size count of the response body) and the attempted sends. -/
def handler (env : DispatchEnv) (decodeURI : String → String)
    (records : List S3Record) : Except String Nat × List Task :=
  match records with
  | [] => (Except.error "no record", [])
  | record :: _ =>
    let bucket := record.bucketName
    let key := decodeURI (plusToSpace record.objectKey)
    match env.fetchMeta bucket key with
    | Except.error e => (Except.error e, [])
    | Except.ok metadata =>
        let applicableSizes := ALL_SIZES.filter (fun size => size ≤ metadata.width)
        let tasks := applicableSizes.map (fun size =>
          { sourceBucket := bucket, sourceKey := key, targetSize := size,
            originalWidth := metadata.width, originalHeight := metadata.height })
        match sendTasks env.send tasks with
        | (Except.ok _, sent) => (Except.ok applicableSizes.length, sent)
        | (Except.error e, sent) => (Except.error e, sent)

end ImageOpt.InitialProcessor

namespace ImageOpt.InitialProcessorTs

/-- The combined ascending catalog of the dispatcher index.ts variant (the
full Next.js defaults, unlike index.mjs). -/
def ALL_SIZES : List Nat :=
  sortAsc ([16, 32, 48, 64, 96, 128, 256, 384]
    ++ [640, 750, 828, 1080, 1200, 1920, 2048, 3840])

/-- The dispatcher handler of index.ts: identical control flow to index.mjs
but over the full catalog. -/
def handler (env : InitialProcessor.DispatchEnv) (decodeURI : String → String)
    (records : List S3Record) : Except String Nat × List Task :=
  match records with
  | [] => (Except.error "no record", [])
  | record :: _ =>
    let bucket := record.bucketName
    let key := decodeURI (plusToSpace record.objectKey)
    match env.fetchMeta bucket key with
    | Except.error e => (Except.error e, [])
    | Except.ok metadata =>
        let applicableSizes := ALL_SIZES.filter (fun size => size ≤ metadata.width)
        let tasks := applicableSizes.map (fun size =>
          { sourceBucket := bucket, sourceKey := key, targetSize := size,
            originalWidth := metadata.width, originalHeight := metadata.height })
        match sendTasks env.send tasks with
        | (Except.ok _, sent) => (Except.ok applicableSizes.length, sent)
        | (Except.error e, sent) => (Except.error e, sent)

end ImageOpt.InitialProcessorTs

namespace ImageOpt

/-- A concrete encoder for witnesses: bytes and info echo the request. -/
def E0 : Encoder := fun a =>
  { data := [a.width, a.height], info := { width := a.width, height := a.height } }

/-- A concrete task for witnesses: width 640 from a 1200 by 800 source. -/
def task0 : Task :=
  { sourceBucket := "src", sourceKey := "images/photo.jpg", targetSize := 640,
    originalWidth := 1200, originalHeight := 800 }

/-- A concrete task whose source key has no filename extension. -/
def taskNoExt : Task :=
  { sourceBucket := "src", sourceKey := "images/photo", targetSize := 640,
    originalWidth := 1200, originalHeight := 800 }

/-- A concrete trigger record for witnesses. -/
def rec0 : S3Record := { bucketName := "src", objectKey := "images/photo.jpg" }

/-- A dispatcher environment whose fetch yields a 1200 by 800 image and
whose sends all succeed. -/
def env0 : InitialProcessor.DispatchEnv :=
  { fetchMeta := fun _ _ => Except.ok { width := 1200, height := 800 },
    send := fun _ => Except.ok () }

/-- A dispatcher environment whose fetch yields a 1200 by 800 image and
whose send fails exactly on target size 64 (the first applicable size). -/
def envBad : InitialProcessor.DispatchEnv :=
  { fetchMeta := fun _ _ => Except.ok { width := 1200, height := 800 },
    send := fun t => if t.targetSize == 64 then Except.error "send failure" else Except.ok () }

/-- A dispatcher environment whose fetch yields a 50 by 50 image. -/
def envSmall : InitialProcessor.DispatchEnv :=
  { fetchMeta := fun _ _ => Except.ok { width := 50, height := 50 },
    send := fun _ => Except.ok () }

end ImageOpt

namespace ImageOpt

theorem chunksOf5Aux_flatMap {β : Type} (g : Nat → List β) :
    ∀ (fuel : Nat) (l : List Nat), l.length ≤ fuel →
      (chunksOf5Aux fuel l).flatMap (fun chunk => chunk.flatMap g) = l.flatMap g := by
  intro fuel
  induction fuel with
  | zero =>
      intro l hl
      rw [List.length_eq_zero.mp (Nat.le_zero.mp hl)]
      rfl
  | succ fuel ih =>
      intro l hl
      cases l with
      | nil => rfl
      | cons a rest =>
          rw [chunksOf5Aux, List.flatMap_cons,
            ih (rest.drop 4) (by simp only [List.length_drop]; simp at hl; omega),
            ← List.flatMap_append, List.cons_append, List.take_append_drop]

theorem chunksOf5_flatMap {β : Type} (g : Nat → List β) :
    ∀ l : List Nat, (chunksOf5 l).flatMap (fun chunk => chunk.flatMap g) = l.flatMap g := by
  intro l
  exact chunksOf5Aux_flatMap g l.length l (Nat.le_refl _)

theorem roundHalfUp_eq_round (n d : Nat) (hd : 0 < d) :
    (roundHalfUp n d : ℤ) = round ((n : ℚ) / d) := by
  have h1 : (n : ℚ) / d + 1 / 2 = ((2 * n + d : ℕ) : ℚ) / ((2 * d : ℕ) : ℚ) := by
    push_cast
    field_simp
    ring
  rw [round_eq, h1, Rat.floor_natCast_div_natCast]
  unfold roundHalfUp
  push_cast
  rfl

theorem takeWhile_append_stop {p : Char → Bool} :
    ∀ (l₁ : List Char) (x : Char) (l₂ : List Char), (∀ c ∈ l₁, p c = true) → p x = false →
      (l₁ ++ x :: l₂).takeWhile p = l₁ ∧ (l₁ ++ x :: l₂).dropWhile p = x :: l₂ := by
  intro l₁
  induction l₁ with
  | nil =>
      intro x l₂ _ hx
      exact ⟨by simp [List.takeWhile, hx], by simp [List.dropWhile, hx]⟩
  | cons c cs ih =>
      intro x l₂ hall hx
      have hc : p c = true := hall c (List.mem_cons_self c cs)
      have hrest := ih x l₂ (fun d hd => hall d (List.mem_cons_of_mem c hd)) hx
      exact ⟨by simp [List.takeWhile, hc, hrest.1], by simp [List.dropWhile, hc, hrest.2]⟩

theorem jsReplaceExt_hasExt (base f : String) (ext : List Char) (hne : ext ≠ [])
    (hgood : ∀ c ∈ ext, (!(c == '.') && !(c == '/')) = true) :
    jsReplaceExt (base ++ String.mk ('.' :: ext)) ("." ++ f) = base ++ "." ++ f := by
  apply String.ext
  have hdata : (base ++ String.mk ('.' :: ext)).data = base.data ++ '.' :: ext :=
    String.data_append base (String.mk ('.' :: ext))
  have hrev : (base.data ++ '.' :: ext).reverse = ext.reverse ++ '.' :: base.data.reverse := by
    rw [List.reverse_append, List.reverse_cons, List.append_assoc]
    rfl
  have hgoodrev : ∀ c ∈ ext.reverse, (!(c == '.') && !(c == '/')) = true := by
    intro c hc
    exact hgood c (List.mem_reverse.mp hc)
  have hstop := takeWhile_append_stop ext.reverse '.' base.data.reverse hgoodrev (by rfl)
  have hemp : ext.reverse.isEmpty = false := by
    cases h : ext.reverse with
    | nil => exact absurd (List.reverse_eq_nil_iff.mp h) hne
    | cons a l => rfl
  show (extReplaceCore (base ++ String.mk ('.' :: ext)).data ("." ++ f).data) = _
  rw [hdata]
  unfold extReplaceCore
  simp only [hrev, hstop.1, hstop.2, hemp]
  rw [List.reverse_reverse]
  simp [String.data_append, List.append_assoc]

theorem dropWhile_no_dot : ∀ (r : List Char),
    (∀ c ∈ r.takeWhile (fun c => !(c == '/')), (!(c == '.')) = true) →
    (r.dropWhile (fun c => !(c == '.') && !(c == '/')) = [] ∨
     ∃ t, r.dropWhile (fun c => !(c == '.') && !(c == '/')) = '/' :: t) := by
  intro r
  induction r with
  | nil => intro _; exact Or.inl rfl
  | cons c cs ih =>
      intro h
      by_cases hc : c = '/'
      · subst hc
        exact Or.inr ⟨cs, by simp [List.dropWhile]⟩
      · have hq : (!(c == '/')) = true := by simp [hc]
        have hcd : (!(c == '.')) = true := by
          apply h c
          simp [List.takeWhile_cons, hq]
        have hp : ((!(c == '.')) && (!(c == '/'))) = true := by
          rw [hcd, hq]
          rfl
        have hrec := ih (fun d hd => h d (by simp [List.takeWhile_cons, hq]; exact Or.inr hd))
        simpa [List.dropWhile, hp] using hrec

theorem jsReplaceExt_noExt (k repl : String)
    (h : ∀ c ∈ k.data.reverse.takeWhile (fun c => !(c == '/')), (!(c == '.')) = true) :
    jsReplaceExt k repl = k := by
  apply String.ext
  show extReplaceCore k.data repl.data = k.data
  unfold extReplaceCore
  rcases dropWhile_no_dot k.data.reverse h with h0 | ⟨t, ht⟩
  · simp only [h0]
  · simp only [ht]
    rfl

theorem sendTasks_all_ok (send : Task → Except String Unit) :
    ∀ tasks : List Task, (∀ t ∈ tasks, send t = Except.ok ()) →
      sendTasks send tasks = (Except.ok (), tasks) := by
  intro tasks
  induction tasks with
  | nil => intro _; rfl
  | cons t rest ih =>
      intro h
      unfold sendTasks
      rw [h t (List.mem_cons_self t rest), ih (fun x hx => h x (List.mem_cons_of_mem t hx))]

theorem sendTasks_first_fail (send : Task → Except String Unit) :
    ∀ (pre : List Task) (t : Task) (post : List Task) (e : String),
      (∀ x ∈ pre, send x = Except.ok ()) → send t = Except.error e →
      sendTasks send (pre ++ t :: post) = (Except.error e, pre ++ [t]) := by
  intro pre
  induction pre with
  | nil =>
      intro t post e _ ht
      rw [List.nil_append]
      simp only [sendTasks, ht]
      rfl
  | cons x xs ih =>
      intro t post e hall ht
      have hx : send x = Except.ok () := hall x (List.mem_cons_self x xs)
      rw [List.cons_append]
      simp only [sendTasks, hx, ih t post e (fun y hy => hall y (List.mem_cons_of_mem x hy)) ht]
      rfl

theorem sendTasks_attempted_initial_segment (send : Task → Except String Unit) :
    ∀ tasks : List Task, ∃ suffix, (sendTasks send tasks).2 ++ suffix = tasks := by
  intro tasks
  induction tasks with
  | nil => exact ⟨[], rfl⟩
  | cons t rest ih =>
      unfold sendTasks
      cases hsend : send t with
      | ok u =>
          obtain ⟨suffix, hsuf⟩ := ih
          exact ⟨suffix, by simp [hsuf]⟩
      | error e => exact ⟨rest, rfl⟩

end ImageOpt

namespace ImageOpt

theorem versionPuts_width (E : Encoder) (pb k : String) (W H tw : Nat) :
    ∀ p ∈ ImageProcessor.versionPuts E pb k W H tw, p.encArgs.width = tw := by
  intro p hp
  simp only [ImageProcessor.versionPuts, List.mem_cons, List.not_mem_nil, or_false] at hp
  rcases hp with h | h
  · subst h; rfl
  · subst h; rfl

theorem versionPuts_exists_webp (E : Encoder) (pb k : String) (W H tw : Nat) :
    ∃ p ∈ ImageProcessor.versionPuts E pb k W H tw,
      p.encArgs.width = tw ∧ p.encArgs.fmt = "webp" := by
  simp only [ImageProcessor.versionPuts]
  exact ⟨_, List.mem_cons_self _ _, rfl, rfl⟩

theorem versionPuts_exists_avif (E : Encoder) (pb k : String) (W H tw : Nat) :
    ∃ p ∈ ImageProcessor.versionPuts E pb k W H tw,
      p.encArgs.width = tw ∧ p.encArgs.fmt = "avif" := by
  simp only [ImageProcessor.versionPuts]
  exact ⟨_, List.mem_cons_of_mem _ (List.mem_cons_self _ _), rfl, rfl⟩

theorem processImage_width_iff (E : Encoder) (pb k : String) (W H w : Nat) :
    (∃ p ∈ (ImageProcessor.processImage E pb k W H).1, p.encArgs.width = w)
      ↔ (w ∈ ImageProcessor.ALL_SIZES ∧ w ≤ W) := by
  simp only [ImageProcessor.processImage]
  rw [chunksOf5_flatMap]
  constructor
  · rintro ⟨p, hp, hw⟩
    rw [List.mem_flatMap] at hp
    obtain ⟨tw, htw, hmem⟩ := hp
    rw [List.mem_filter] at htw
    rw [versionPuts_width E pb k W H tw p hmem] at hw
    subst hw
    exact ⟨htw.1, by simpa using htw.2⟩
  · rintro ⟨hmem, hle⟩
    obtain ⟨p, hp, hw, _⟩ := versionPuts_exists_webp E pb k W H w
    exact ⟨p, List.mem_flatMap.mpr ⟨w, List.mem_filter.mpr ⟨hmem, by simpa using hle⟩, hp⟩, hw⟩

theorem filter_initial_empty (W : Nat) (h : W < 64) :
    InitialProcessor.ALL_SIZES.filter (fun s => s ≤ W) = [] := by
  have hval : InitialProcessor.ALL_SIZES = [64, 128, 384, 640, 828, 1200, 1920] := by decide
  rw [hval, List.filter_eq_nil_iff]
  intro a ha
  simp only [List.mem_cons, List.not_mem_nil, or_false] at ha
  simp only [decide_eq_true_eq]
  rcases ha with rfl | rfl | rfl | rfl | rfl | rfl | rfl <;> omega

theorem filter_image_empty (W : Nat) (h : W < 16) :
    ImageProcessor.ALL_SIZES.filter (fun s => s ≤ W) = [] := by
  have hval : ImageProcessor.ALL_SIZES
      = [16, 32, 48, 64, 96, 128, 256, 384, 640, 750, 828, 1080, 1200, 1920, 2048, 3840] := by
    decide
  rw [hval, List.filter_eq_nil_iff]
  intro a ha
  simp only [List.mem_cons, List.not_mem_nil, or_false] at ha
  simp only [decide_eq_true_eq]
  rcases ha with rfl | rfl | rfl | rfl | rfl | rfl | rfl | rfl | rfl | rfl | rfl | rfl | rfl
    | rfl | rfl | rfl <;> omega

theorem processImage_empty (E : Encoder) (pb k : String) (W H : Nat) (h : W < 16) :
    (ImageProcessor.processImage E pb k W H).1 = [] := by
  simp only [ImageProcessor.processImage]
  rw [chunksOf5_flatMap, filter_image_empty W h]
  rfl

theorem initialHandler_tasks (env : InitialProcessor.DispatchEnv)
    (decodeURI : String → String) (r : S3Record) (rest : List S3Record) (meta : Meta)
    (hfetch : env.fetchMeta r.bucketName (decodeURI (plusToSpace r.objectKey)) = Except.ok meta)
    (hsend : ∀ t, env.send t = Except.ok ()) :
    (InitialProcessor.handler env decodeURI (r :: rest)).2.map (fun t => t.targetSize)
      = InitialProcessor.ALL_SIZES.filter (fun s => s ≤ meta.width) := by
  unfold InitialProcessor.handler
  simp only [hfetch]
  rw [sendTasks_all_ok env.send _ (fun t _ => hsend t)]
  simp [Function.comp_def]

end ImageOpt

namespace ImageOpt

/-- C1 counterexample: with a 1200-wide source, the single-stage processor
produces a variant at width 750 (the full Next.js catalog includes 750 and
1080, both at most 1200), while the dispatcher index.mjs produces tasks
only for its reduced catalog [64, 128, 384, 640, 828, 1200]; neither
matches the claimed applicable-width set of eleven entries. -/
theorem C1_counterexample :
    ((ImageProcessor.processImage E0 "pb" "photo.jpg" 1200 800).1.map
        (fun p => p.encArgs.width)).contains 750 = true
    ∧ ([16, 32, 48, 64, 96, 128, 256, 384, 640, 828, 1200].contains 750) = false
    ∧ (InitialProcessor.handler env0 (fun s => s) [rec0]).2.map (fun t => t.targetSize)
        = [64, 128, 384, 640, 828, 1200] := by
  exact ⟨by decide, by decide, by decide⟩

/-- C1 amended: each component produces variants (or tasks) exactly for the
widths of its own catalog that are at most the original width, and the set
is empty when the width is below the smallest catalog entry; but the
catalogs differ per component, and for a 1200-wide source the applicable
widths are [16, 32, 48, 64, 96, 128, 256, 384, 640, 750, 828, 1080, 1200]
(thirteen entries, including 750 and 1080) for the single-stage processor
and [64, 128, 384, 640, 828, 1200] for the dispatcher index.mjs — not the
claimed eleven-entry set. -/
theorem C1_amended_completeness :
    (∀ (E : Encoder) (pb k : String) (W H w : Nat),
        (∃ p ∈ (ImageProcessor.processImage E pb k W H).1, p.encArgs.width = w)
          ↔ (w ∈ ImageProcessor.ALL_SIZES ∧ w ≤ W))
    ∧ (∀ (env : InitialProcessor.DispatchEnv) (decodeURI : String → String)
        (r : S3Record) (rest : List S3Record) (meta : Meta),
        env.fetchMeta r.bucketName (decodeURI (plusToSpace r.objectKey)) = Except.ok meta →
        (∀ t, env.send t = Except.ok ()) →
        (InitialProcessor.handler env decodeURI (r :: rest)).2.map (fun t => t.targetSize)
          = InitialProcessor.ALL_SIZES.filter (fun s => s ≤ meta.width))
    ∧ (∀ (E : Encoder) (pb k : String) (W H : Nat), W < 16 →
        (ImageProcessor.processImage E pb k W H).1 = [])
    ∧ ImageProcessor.ALL_SIZES.filter (fun s => s ≤ 1200)
        = [16, 32, 48, 64, 96, 128, 256, 384, 640, 750, 828, 1080, 1200]
    ∧ InitialProcessor.ALL_SIZES.filter (fun s => s ≤ 1200) = [64, 128, 384, 640, 828, 1200] := by
  refine ⟨processImage_width_iff, ?_, processImage_empty, by decide, by decide⟩
  intro env decodeURI r rest meta hfetch hsend
  exact initialHandler_tasks env decodeURI r rest meta hfetch hsend

/-- C1 witness: the amended completeness instantiated at concrete inputs. -/
theorem C1_witness :
    (∃ p ∈ (ImageProcessor.processImage E0 "pb" "photo.jpg" 1200 800).1, p.encArgs.width = 750)
    ∧ (InitialProcessor.handler env0 (fun s => s) [rec0]).2.map (fun t => t.targetSize)
        = InitialProcessor.ALL_SIZES.filter (fun s => s ≤ 1200)
    ∧ (ImageProcessor.processImage E0 "pb" "p.png" 10 10).1 = [] := by
  refine ⟨?_, ?_, ?_⟩
  · exact (C1_amended_completeness.1 E0 "pb" "photo.jpg" 1200 800 750).mpr ⟨by decide, by decide⟩
  · exact C1_amended_completeness.2.1 env0 (fun s => s) rec0 []
      { width := 1200, height := 800 } rfl (fun t => rfl)
  · exact C1_amended_completeness.2.2.1 E0 "pb" "p.png" 10 10 (by decide)

end ImageOpt

namespace ImageOpt

theorem sizeProc_avif_iff (E : Encoder) (pb : String) (task : Task) :
    (∃ p ∈ SizeProcessor.handlerPuts E pb task, p.encArgs.fmt = "avif")
      ↔ 640 ≤ task.targetSize := by
  unfold SizeProcessor.handlerPuts
  by_cases h : 640 ≤ task.targetSize
  · simp only [if_pos h]
    constructor
    · intro _
      exact h
    · intro _
      exact ⟨_, List.mem_cons_of_mem _ (List.mem_cons_self _ _), rfl⟩
  · simp only [if_neg h]
    constructor
    · rintro ⟨p, hp, hfmt⟩
      simp only [List.mem_cons, List.not_mem_nil, or_false] at hp
      subst hp
      exact absurd (show ("webp" : String) = "avif" from hfmt) (by decide)
    · intro hge
      exact absurd hge h

theorem sizeProc_webp_exists (E : Encoder) (pb : String) (task : Task) :
    ∃ p ∈ SizeProcessor.handlerPuts E pb task, p.encArgs.fmt = "webp" := by
  unfold SizeProcessor.handlerPuts
  by_cases h : 640 ≤ task.targetSize
  · simp only [if_pos h]
    exact ⟨_, List.mem_cons_self _ _, rfl⟩
  · simp only [if_neg h]
    exact ⟨_, List.mem_cons_self _ _, rfl⟩

theorem sizeProcTs_avif_iff (E : Encoder) (pb : String) (task : Task) :
    (∃ p ∈ SizeProcessorTs.handlerPuts E pb task, p.encArgs.fmt = "avif")
      ↔ 640 ≤ task.targetSize := by
  unfold SizeProcessorTs.handlerPuts
  by_cases h : 640 ≤ task.targetSize
  · simp only [if_pos h]
    constructor
    · intro _
      exact h
    · intro _
      exact ⟨_, List.mem_cons_of_mem _ (List.mem_cons_self _ _), rfl⟩
  · simp only [if_neg h]
    constructor
    · rintro ⟨p, hp, hfmt⟩
      simp only [List.mem_cons, List.not_mem_nil, or_false] at hp
      subst hp
      exact absurd (show ("webp" : String) = "avif" from hfmt) (by decide)
    · intro hge
      exact absurd hge h

theorem sizeProcTs_webp_exists (E : Encoder) (pb : String) (task : Task) :
    ∃ p ∈ SizeProcessorTs.handlerPuts E pb task, p.encArgs.fmt = "webp" := by
  unfold SizeProcessorTs.handlerPuts
  by_cases h : 640 ≤ task.targetSize
  · simp only [if_pos h]
    exact ⟨_, List.mem_cons_self _ _, rfl⟩
  · simp only [if_neg h]
    exact ⟨_, List.mem_cons_self _ _, rfl⟩

theorem processImage_avif_iff (E : Encoder) (pb k : String) (W H w : Nat) :
    (∃ p ∈ (ImageProcessor.processImage E pb k W H).1,
        p.encArgs.width = w ∧ p.encArgs.fmt = "avif")
      ↔ (w ∈ ImageProcessor.ALL_SIZES ∧ w ≤ W) := by
  simp only [ImageProcessor.processImage]
  rw [chunksOf5_flatMap]
  constructor
  · rintro ⟨p, hp, hw, _⟩
    rw [List.mem_flatMap] at hp
    obtain ⟨tw, htw, hmem⟩ := hp
    rw [List.mem_filter] at htw
    rw [versionPuts_width E pb k W H tw p hmem] at hw
    subst hw
    exact ⟨htw.1, by simpa using htw.2⟩
  · rintro ⟨hmem, hle⟩
    obtain ⟨p, hp, hw, hfmt⟩ := versionPuts_exists_avif E pb k W H w
    exact ⟨p, List.mem_flatMap.mpr ⟨w, List.mem_filter.mpr ⟨hmem, by simpa using hle⟩, hp⟩,
      hw, hfmt⟩

theorem lambda_avif_iff (E : Encoder) (pb k : String) (W H w : Nat) :
    (∃ p ∈ LambdaProcessor.processPuts E pb k W H,
        p.encArgs.width = w ∧ p.encArgs.fmt = "avif")
      ↔ (w ∈ LambdaProcessor.ALL_SIZES ∧ w ≤ W) := by
  unfold LambdaProcessor.processPuts
  constructor
  · rintro ⟨p, hp, hw, _⟩
    rw [List.mem_flatMap] at hp
    obtain ⟨tw, htw, hmem⟩ := hp
    rw [List.mem_filter] at htw
    simp only [List.mem_cons, List.not_mem_nil, or_false] at hmem
    have hwidth : p.encArgs.width = tw := by
      rcases hmem with h | h <;> subst h <;> rfl
    rw [hwidth] at hw
    subst hw
    exact ⟨htw.1, by simpa using htw.2⟩
  · rintro ⟨hmem, hle⟩
    refine ⟨_, List.mem_flatMap.mpr ⟨w, List.mem_filter.mpr ⟨hmem, by simpa using hle⟩,
      List.mem_cons_of_mem _ (List.mem_cons_self _ _)⟩, rfl, rfl⟩

/-- C2 counterexample: with a 16-wide source, the single-stage processor
writes an AVIF variant at width 16 (below 640), and the WebP-only
size-processor variant writes no AVIF variant even for target size 640 —
so the claimed gate does not hold for every processor that writes
variants. -/
theorem C2_counterexample :
    (ImageProcessor.processImage E0 "pb" "photo.jpg" 16 16).1.map
        (fun p => (p.encArgs.fmt, p.encArgs.width))
      = [("webp", 16), ("avif", 16)]
    ∧ (WebpOnlyProcessor.handlerPuts E0 "pb" task0).map (fun p => p.encArgs.fmt)
      = ["webp"] := by
  exact ⟨by decide, by decide⟩

/-- C2 amended: WebP is written for every produced width by every
processor.  The AVIF gate at width 640 holds only in the two queue-driven
size processors (index.mjs and the .ts variant); the single-stage
processors (functions/image-processor and the lambda variant) write AVIF
for every produced width, and the WebP-only size-processor variant writes
no AVIF at all. -/
theorem C2_amended_format_gating :
    (∀ (E : Encoder) (pb : String) (task : Task),
        ((∃ p ∈ SizeProcessor.handlerPuts E pb task, p.encArgs.fmt = "avif")
           ↔ 640 ≤ task.targetSize)
        ∧ ∃ p ∈ SizeProcessor.handlerPuts E pb task, p.encArgs.fmt = "webp")
    ∧ (∀ (E : Encoder) (pb : String) (task : Task),
        ((∃ p ∈ SizeProcessorTs.handlerPuts E pb task, p.encArgs.fmt = "avif")
           ↔ 640 ≤ task.targetSize)
        ∧ ∃ p ∈ SizeProcessorTs.handlerPuts E pb task, p.encArgs.fmt = "webp")
    ∧ (∀ (E : Encoder) (pb : String) (task : Task) (p : PutAction),
        p ∈ WebpOnlyProcessor.handlerPuts E pb task → p.encArgs.fmt = "webp")
    ∧ (∀ (E : Encoder) (pb k : String) (W H w : Nat),
        (∃ p ∈ (ImageProcessor.processImage E pb k W H).1,
            p.encArgs.width = w ∧ p.encArgs.fmt = "avif")
          ↔ (w ∈ ImageProcessor.ALL_SIZES ∧ w ≤ W))
    ∧ (∀ (E : Encoder) (pb k : String) (W H w : Nat),
        (∃ p ∈ LambdaProcessor.processPuts E pb k W H,
            p.encArgs.width = w ∧ p.encArgs.fmt = "avif")
          ↔ (w ∈ LambdaProcessor.ALL_SIZES ∧ w ≤ W)) := by
  refine ⟨fun E pb task => ⟨sizeProc_avif_iff E pb task, sizeProc_webp_exists E pb task⟩,
    fun E pb task => ⟨sizeProcTs_avif_iff E pb task, sizeProcTs_webp_exists E pb task⟩,
    ?_, processImage_avif_iff, lambda_avif_iff⟩
  intro E pb task p hp
  unfold WebpOnlyProcessor.handlerPuts at hp
  simp only [List.mem_cons, List.not_mem_nil, or_false] at hp
  subst hp
  rfl

/-- C2 witness: the amended gating instantiated at concrete inputs. -/
theorem C2_witness :
    (∃ p ∈ SizeProcessor.handlerPuts E0 "pb" task0, p.encArgs.fmt = "avif")
    ∧ (∃ p ∈ (ImageProcessor.processImage E0 "pb" "photo.jpg" 16 16).1,
        p.encArgs.width = 16 ∧ p.encArgs.fmt = "avif")
    ∧ (WebpOnlyProcessor.handlerPuts E0 "pb" task0).head!.encArgs.fmt = "webp" := by
  refine ⟨((C2_amended_format_gating.1 E0 "pb" task0).1).mpr (by decide),
    (C2_amended_format_gating.2.2.2.1 E0 "pb" "photo.jpg" 16 16 16).mpr ⟨by decide, by decide⟩,
    C2_amended_format_gating.2.2.1 E0 "pb" task0 _ ?_⟩
  decide

end ImageOpt

namespace ImageOpt

theorem sizeProc_efforts (E : Encoder) (pb : String) (task : Task) :
    ∀ p ∈ SizeProcessor.handlerPuts E pb task,
      (p.encArgs.fmt = "webp"
        ∧ p.encArgs.effort = (SizeProcessor.getQualityConfig task.targetSize).effort)
      ∨ (p.encArgs.fmt = "avif"
        ∧ p.encArgs.effort = (SizeProcessor.getQualityConfig task.targetSize).effort + 2) := by
  intro p hp
  by_cases h : 640 ≤ task.targetSize
  · simp only [SizeProcessor.handlerPuts, if_pos h, List.mem_cons, List.not_mem_nil,
      or_false] at hp
    rcases hp with hp | hp <;> subst hp
    · exact Or.inl ⟨rfl, rfl⟩
    · exact Or.inr ⟨rfl, rfl⟩
  · simp only [SizeProcessor.handlerPuts, if_neg h, List.mem_cons, List.not_mem_nil,
      or_false] at hp
    subst hp
    exact Or.inl ⟨rfl, rfl⟩

theorem sizeProcTs_efforts (E : Encoder) (pb : String) (task : Task) :
    ∀ p ∈ SizeProcessorTs.handlerPuts E pb task,
      p.encArgs.effort = (SizeProcessorTs.getQualityConfig task.targetSize).effort := by
  intro p hp
  by_cases h : 640 ≤ task.targetSize
  · simp only [SizeProcessorTs.handlerPuts, if_pos h, List.mem_cons, List.not_mem_nil,
      or_false] at hp
    rcases hp with hp | hp <;> subst hp <;> rfl
  · simp only [SizeProcessorTs.handlerPuts, if_neg h, List.mem_cons, List.not_mem_nil,
      or_false] at hp
    subst hp
    rfl

theorem processImage_efforts (E : Encoder) (pb k : String) (W H : Nat) :
    ∀ p ∈ (ImageProcessor.processImage E pb k W H).1,
      (p.encArgs.fmt = "webp"
        ∧ p.encArgs.effort = (ImageProcessor.getQualityConfig p.encArgs.width).effort)
      ∨ (p.encArgs.fmt = "avif"
        ∧ p.encArgs.effort = (ImageProcessor.getQualityConfig p.encArgs.width).effort + 2) := by
  intro p hp
  simp only [ImageProcessor.processImage] at hp
  rw [chunksOf5_flatMap] at hp
  rw [List.mem_flatMap] at hp
  obtain ⟨tw, _, hmem⟩ := hp
  simp only [ImageProcessor.versionPuts, List.mem_cons, List.not_mem_nil, or_false] at hmem
  rcases hmem with hp | hp <;> subst hp
  · exact Or.inl ⟨rfl, rfl⟩
  · exact Or.inr ⟨rfl, rfl⟩

theorem lambda_efforts (E : Encoder) (pb k : String) (W H : Nat) :
    ∀ p ∈ LambdaProcessor.processPuts E pb k W H,
      (p.encArgs.fmt = "webp"
        ∧ p.encArgs.effort = (LambdaProcessor.getQualityConfig p.encArgs.width).effort)
      ∨ (p.encArgs.fmt = "avif"
        ∧ p.encArgs.effort = (LambdaProcessor.getQualityConfig p.encArgs.width).effort + 2) := by
  intro p hp
  unfold LambdaProcessor.processPuts at hp
  rw [List.mem_flatMap] at hp
  obtain ⟨tw, _, hmem⟩ := hp
  simp only [List.mem_cons, List.not_mem_nil, or_false] at hmem
  rcases hmem with hp | hp <;> subst hp
  · exact Or.inl ⟨rfl, rfl⟩
  · exact Or.inr ⟨rfl, rfl⟩

/-- C3 counterexample: the WebP-only size-processor variant returns
quality 85 (not 90) with effort 4 for width 1200, so its policy is a
different, two-tier function; and the size-processor index.ts variant
encodes AVIF at effort 5 for target size 640, equal to its WebP effort
rather than the WebP effort plus 2. -/
theorem C3_counterexample :
    WebpOnlyProcessor.getQualityConfig 1200 = { quality := 85, effort := 4 }
    ∧ SizeProcessor.getQualityConfig 1200 = { quality := 90, effort := 6 }
    ∧ (SizeProcessorTs.handlerPuts E0 "pb" task0).map
        (fun p => (p.encArgs.fmt, p.encArgs.effort))
      = [("webp", 5), ("avif", 5)] := by
  exact ⟨by decide, by decide, by decide⟩

/-- C3 amended: the three-tier quality policy (80 to width 384, 85 to
1080, 90 above, with efforts 4, 5, 6) is shared verbatim by the
size-processor index.mjs and .ts variants and both single-stage
processors; the AVIF effort is the WebP effort plus 2 in size-processor
index.mjs and in both single-stage processors, but the size-processor .ts
variant uses the unmodified tier effort for AVIF, and the WebP-only
variant uses a deviating two-tier policy (80 at effort 4 up to 384, else
85 at effort 4). -/
theorem C3_amended_quality_tiering :
    (∀ w : Nat,
        (w ≤ 384 → SizeProcessor.getQualityConfig w = { quality := 80, effort := 4 })
        ∧ (384 < w → w ≤ 1080 → SizeProcessor.getQualityConfig w = { quality := 85, effort := 5 })
        ∧ (1080 < w → SizeProcessor.getQualityConfig w = { quality := 90, effort := 6 }))
    ∧ (∀ w : Nat, SizeProcessor.getQualityConfig w = SizeProcessorTs.getQualityConfig w
        ∧ SizeProcessor.getQualityConfig w = ImageProcessor.getQualityConfig w
        ∧ SizeProcessor.getQualityConfig w = LambdaProcessor.getQualityConfig w)
    ∧ (∀ w : Nat,
        (w ≤ 384 → WebpOnlyProcessor.getQualityConfig w = { quality := 80, effort := 4 })
        ∧ (384 < w → WebpOnlyProcessor.getQualityConfig w = { quality := 85, effort := 4 }))
    ∧ (∀ (E : Encoder) (pb : String) (task : Task), ∀ p ∈ SizeProcessor.handlerPuts E pb task,
        (p.encArgs.fmt = "webp"
          ∧ p.encArgs.effort = (SizeProcessor.getQualityConfig task.targetSize).effort)
        ∨ (p.encArgs.fmt = "avif"
          ∧ p.encArgs.effort = (SizeProcessor.getQualityConfig task.targetSize).effort + 2))
    ∧ (∀ (E : Encoder) (pb : String) (task : Task), ∀ p ∈ SizeProcessorTs.handlerPuts E pb task,
        p.encArgs.effort = (SizeProcessorTs.getQualityConfig task.targetSize).effort)
    ∧ (∀ (E : Encoder) (pb k : String) (W H : Nat),
        ∀ p ∈ (ImageProcessor.processImage E pb k W H).1,
        (p.encArgs.fmt = "webp"
          ∧ p.encArgs.effort = (ImageProcessor.getQualityConfig p.encArgs.width).effort)
        ∨ (p.encArgs.fmt = "avif"
          ∧ p.encArgs.effort = (ImageProcessor.getQualityConfig p.encArgs.width).effort + 2))
    ∧ (∀ (E : Encoder) (pb k : String) (W H : Nat),
        ∀ p ∈ LambdaProcessor.processPuts E pb k W H,
        (p.encArgs.fmt = "webp"
          ∧ p.encArgs.effort = (LambdaProcessor.getQualityConfig p.encArgs.width).effort)
        ∨ (p.encArgs.fmt = "avif"
          ∧ p.encArgs.effort = (LambdaProcessor.getQualityConfig p.encArgs.width).effort + 2)) := by
  refine ⟨?_, fun w => ⟨rfl, rfl, rfl⟩, ?_, sizeProc_efforts, sizeProcTs_efforts,
    processImage_efforts, lambda_efforts⟩
  · intro w
    refine ⟨?_, ?_, ?_⟩
    · intro h1
      unfold SizeProcessor.getQualityConfig
      rw [if_pos h1]
    · intro h1 h2
      unfold SizeProcessor.getQualityConfig
      rw [if_neg (by omega), if_pos h2]
    · intro h1
      unfold SizeProcessor.getQualityConfig
      rw [if_neg (by omega), if_neg (by omega)]
  · intro w
    refine ⟨?_, ?_⟩
    · intro h1
      unfold WebpOnlyProcessor.getQualityConfig
      rw [if_pos h1]
    · intro h1
      unfold WebpOnlyProcessor.getQualityConfig
      rw [if_neg (by omega)]

/-- C3 witness: the amended quality tiering instantiated at concrete
inputs. -/
theorem C3_witness :
    SizeProcessor.getQualityConfig 100 = { quality := 80, effort := 4 }
    ∧ SizeProcessor.getQualityConfig 800 = { quality := 85, effort := 5 }
    ∧ SizeProcessor.getQualityConfig 1200 = { quality := 90, effort := 6 }
    ∧ WebpOnlyProcessor.getQualityConfig 1200 = { quality := 85, effort := 4 }
    ∧ (((SizeProcessor.handlerPuts E0 "pb" task0).head!.encArgs.fmt = "webp"
        ∧ (SizeProcessor.handlerPuts E0 "pb" task0).head!.encArgs.effort
          = (SizeProcessor.getQualityConfig task0.targetSize).effort)
      ∨ ((SizeProcessor.handlerPuts E0 "pb" task0).head!.encArgs.fmt = "avif"
        ∧ (SizeProcessor.handlerPuts E0 "pb" task0).head!.encArgs.effort
          = (SizeProcessor.getQualityConfig task0.targetSize).effort + 2)) := by
  refine ⟨(C3_amended_quality_tiering.1 100).1 (by decide),
    (C3_amended_quality_tiering.1 800).2.1 (by decide) (by decide),
    (C3_amended_quality_tiering.1 1200).2.2 (by decide),
    (C3_amended_quality_tiering.2.2.1 1200).2 (by decide),
    C3_amended_quality_tiering.2.2.2.1 E0 "pb" task0 _ (by decide)⟩

end ImageOpt

namespace ImageOpt

/-- C4 counterexample: with a 1200-wide source (six applicable sizes) and a
queue whose send fails on target size 64 — the first applicable size — the
dispatcher attempts only that one send: the for loop aborts on the thrown
send error, the remaining five sizes are never attempted, and the
invocation rethrows. -/
theorem C4_counterexample :
    (InitialProcessor.handler envBad (fun s => s) [rec0]).2.map (fun t => t.targetSize) = [64]
    ∧ (InitialProcessor.handler envBad (fun s => s) [rec0]).1 = Except.error "send failure"
    ∧ InitialProcessor.ALL_SIZES.filter (fun s => s ≤ 1200) = [64, 128, 384, 640, 828, 1200] := by
  exact ⟨by decide, rfl, by decide⟩

/-- C4 amended: the dispatcher's sends are awaited sequentially inside one
try block, so they are not independent: if every send succeeds all N are
attempted, but the first failing send aborts the loop — exactly the sizes
up to and including the first failure are attempted (the attempted sends
always form a prefix of the planned task list) and the handler rethrows
the send error. -/
theorem C4_amended_send_failstop :
    (∀ (send : Task → Except String Unit) (tasks : List Task),
        (∀ t ∈ tasks, send t = Except.ok ()) → sendTasks send tasks = (Except.ok (), tasks))
    ∧ (∀ (send : Task → Except String Unit) (pre : List Task) (t : Task) (post : List Task)
        (e : String), (∀ x ∈ pre, send x = Except.ok ()) → send t = Except.error e →
        sendTasks send (pre ++ t :: post) = (Except.error e, pre ++ [t]))
    ∧ (∀ (send : Task → Except String Unit) (tasks : List Task),
        ∃ suffix, (sendTasks send tasks).2 ++ suffix = tasks)
    ∧ (∀ (env : InitialProcessor.DispatchEnv) (decodeURI : String → String)
        (r : S3Record) (rest : List S3Record) (meta : Meta),
        env.fetchMeta r.bucketName (decodeURI (plusToSpace r.objectKey)) = Except.ok meta →
        ∃ suffix, (InitialProcessor.handler env decodeURI (r :: rest)).2 ++ suffix
          = (InitialProcessor.ALL_SIZES.filter (fun s => s ≤ meta.width)).map (fun size =>
              { sourceBucket := r.bucketName,
                sourceKey := decodeURI (plusToSpace r.objectKey), targetSize := size,
                originalWidth := meta.width, originalHeight := meta.height })) := by
  refine ⟨sendTasks_all_ok, sendTasks_first_fail, sendTasks_attempted_initial_segment, ?_⟩
  intro env decodeURI r rest meta hfetch
  unfold InitialProcessor.handler
  simp only [hfetch]
  obtain ⟨suffix, hsuf⟩ := sendTasks_attempted_initial_segment env.send
    ((InitialProcessor.ALL_SIZES.filter (fun s => s ≤ meta.width)).map (fun size =>
      { sourceBucket := r.bucketName,
        sourceKey := decodeURI (plusToSpace r.objectKey), targetSize := size,
        originalWidth := meta.width, originalHeight := meta.height }))
  refine ⟨suffix, ?_⟩
  rcases hst : sendTasks env.send
      ((InitialProcessor.ALL_SIZES.filter (fun s => s ≤ meta.width)).map (fun size =>
        { sourceBucket := r.bucketName,
          sourceKey := decodeURI (plusToSpace r.objectKey), targetSize := size,
          originalWidth := meta.width, originalHeight := meta.height })) with ⟨res, sent⟩
  rw [hst] at hsuf
  cases res <;> simpa [hst] using hsuf

/-- C4 witness: the amended fail-stop behavior instantiated at concrete
inputs. -/
theorem C4_witness :
    sendTasks env0.send [task0] = (Except.ok (), [task0])
    ∧ sendTasks envBad.send
        ([] ++ ({ sourceBucket := "src", sourceKey := "k", targetSize := 64,
                  originalWidth := 1200, originalHeight := 800 } : Task) :: [task0])
      = (Except.error "send failure",
         [] ++ [{ sourceBucket := "src", sourceKey := "k", targetSize := 64,
                  originalWidth := 1200, originalHeight := 800 }])
    ∧ ∃ suffix, (InitialProcessor.handler envBad (fun s => s) [rec0]).2 ++ suffix
        = (InitialProcessor.ALL_SIZES.filter (fun s => s ≤ 1200)).map (fun size =>
            { sourceBucket := rec0.bucketName,
              sourceKey := (fun s => s) (plusToSpace rec0.objectKey), targetSize := size,
              originalWidth := 1200, originalHeight := 800 }) := by
  refine ⟨C4_amended_send_failstop.1 env0.send [task0] (fun t _ => rfl),
    C4_amended_send_failstop.2.1 envBad.send []
      { sourceBucket := "src", sourceKey := "k", targetSize := 64,
        originalWidth := 1200, originalHeight := 800 } [task0] "send failure"
      (fun x hx => absurd hx (List.not_mem_nil x)) rfl,
    C4_amended_send_failstop.2.2.2 envBad (fun s => s) rec0 []
      { width := 1200, height := 800 } rfl⟩

end ImageOpt

namespace ImageOpt

theorem sizeProc_keys (E : Encoder) (pb : String) (task : Task) :
    ∀ p ∈ SizeProcessor.handlerPuts E pb task,
      p.key = "processed/w" ++ Nat.repr task.targetSize ++ "/"
        ++ jsReplaceExt task.sourceKey ("." ++ p.encArgs.fmt) := by
  intro p hp
  by_cases h : 640 ≤ task.targetSize
  · simp only [SizeProcessor.handlerPuts, if_pos h, List.mem_cons, List.not_mem_nil,
      or_false] at hp
    rcases hp with hp | hp <;> subst hp <;> rfl
  · simp only [SizeProcessor.handlerPuts, if_neg h, List.mem_cons, List.not_mem_nil,
      or_false] at hp
    subst hp
    rfl

theorem imageProc_keys (E : Encoder) (pb k : String) (W H : Nat) :
    ∀ p ∈ (ImageProcessor.processImage E pb k W H).1,
      p.key = "processed/w" ++ Nat.repr p.encArgs.width ++ "/"
        ++ jsReplaceExt k ("." ++ p.encArgs.fmt) := by
  intro p hp
  simp only [ImageProcessor.processImage] at hp
  rw [chunksOf5_flatMap, List.mem_flatMap] at hp
  obtain ⟨tw, _, hmem⟩ := hp
  simp only [ImageProcessor.versionPuts, List.mem_cons, List.not_mem_nil, or_false] at hmem
  rcases hmem with hp | hp <;> subst hp <;> rfl

theorem map_key_versionPuts_indep (E₁ E₂ : Encoder) (pb k : String) (W H : Nat) :
    ∀ l : List Nat,
      ((l.flatMap (fun tw => ImageProcessor.versionPuts E₁ pb k W H tw)).map (fun p => p.key))
        = ((l.flatMap (fun tw => ImageProcessor.versionPuts E₂ pb k W H tw)).map
            (fun p => p.key)) := by
  intro l
  induction l with
  | nil => rfl
  | cons a l ih =>
      simp only [List.flatMap_cons, List.map_append, ih]
      congr 1

/-- C5: every variant write of the size-processor and the single-stage
processor goes to exactly the key processed/w followed by the decimal
target width, a slash, and the source key with its final filename
extension replaced by the format extension; the final-extension rewrite
replaces an existing extension by the new format suffix; and the keys are
a pure function of (sourceKey, width, format) — independent of the encoded
bytes, so redelivering the same task writes the same keys. -/
theorem C5_key_derivation :
    (∀ (E : Encoder) (pb : String) (task : Task), ∀ p ∈ SizeProcessor.handlerPuts E pb task,
        p.key = "processed/w" ++ Nat.repr task.targetSize ++ "/"
          ++ jsReplaceExt task.sourceKey ("." ++ p.encArgs.fmt))
    ∧ (∀ (E : Encoder) (pb k : String) (W H : Nat),
        ∀ p ∈ (ImageProcessor.processImage E pb k W H).1,
        p.key = "processed/w" ++ Nat.repr p.encArgs.width ++ "/"
          ++ jsReplaceExt k ("." ++ p.encArgs.fmt))
    ∧ (∀ (base f : String) (ext : List Char), ext ≠ [] →
        (∀ c ∈ ext, (!(c == '.') && !(c == '/')) = true) →
        jsReplaceExt (base ++ String.mk ('.' :: ext)) ("." ++ f) = base ++ "." ++ f)
    ∧ (∀ (E₁ E₂ : Encoder) (pb : String) (task : Task),
        (SizeProcessor.handlerPuts E₁ pb task).map (fun p => p.key)
          = (SizeProcessor.handlerPuts E₂ pb task).map (fun p => p.key))
    ∧ (∀ (E₁ E₂ : Encoder) (pb k : String) (W H : Nat),
        ((ImageProcessor.processImage E₁ pb k W H).1).map (fun p => p.key)
          = ((ImageProcessor.processImage E₂ pb k W H).1).map (fun p => p.key)) := by
  refine ⟨sizeProc_keys, imageProc_keys, jsReplaceExt_hasExt, ?_, ?_⟩
  · intro E₁ E₂ pb task
    by_cases h : 640 ≤ task.targetSize
    · simp only [SizeProcessor.handlerPuts, if_pos h, List.map_cons, List.map_nil]
    · simp only [SizeProcessor.handlerPuts, if_neg h, List.map_cons, List.map_nil]
  · intro E₁ E₂ pb k W H
    simp only [ImageProcessor.processImage]
    rw [chunksOf5_flatMap, chunksOf5_flatMap]
    exact map_key_versionPuts_indep E₁ E₂ pb k W H _

/-- C5 witness: the key derivation instantiated at concrete inputs. -/
theorem C5_witness :
    (SizeProcessor.handlerPuts E0 "pb" task0).head!.key
      = "processed/w" ++ Nat.repr task0.targetSize ++ "/"
        ++ jsReplaceExt task0.sourceKey
            ("." ++ (SizeProcessor.handlerPuts E0 "pb" task0).head!.encArgs.fmt)
    ∧ jsReplaceExt ("images/photo" ++ String.mk ('.' :: ['j', 'p', 'g'])) ("." ++ "webp")
      = "images/photo" ++ "." ++ "webp" := by
  refine ⟨C5_key_derivation.1 E0 "pb" task0 _ ?_,
    C5_key_derivation.2.2.1 "images/photo" "webp" ['j', 'p', 'g'] (by decide) (by decide)⟩
  decide

end ImageOpt

namespace ImageOpt

theorem sizeProc_metadata (E : Encoder) (pb : String) (task : Task) :
    ∀ p ∈ SizeProcessor.handlerPuts E pb task,
      p.cacheControl = "public, max-age=31536000, immutable"
      ∧ p.metadata = [("width", Nat.repr (E p.encArgs).info.width),
                      ("height", Nat.repr (E p.encArgs).info.height),
                      ("quality", Nat.repr p.encArgs.quality)] := by
  intro p hp
  by_cases h : 640 ≤ task.targetSize
  · simp only [SizeProcessor.handlerPuts, if_pos h, List.mem_cons, List.not_mem_nil,
      or_false] at hp
    rcases hp with hp | hp <;> subst hp <;> exact ⟨rfl, rfl⟩
  · simp only [SizeProcessor.handlerPuts, if_neg h, List.mem_cons, List.not_mem_nil,
      or_false] at hp
    subst hp
    exact ⟨rfl, rfl⟩

theorem sizeProcTs_metadata (E : Encoder) (pb : String) (task : Task) :
    ∀ p ∈ SizeProcessorTs.handlerPuts E pb task,
      p.cacheControl = "public, max-age=31536000, immutable"
      ∧ p.metadata = [("width", Nat.repr (E p.encArgs).info.width),
                      ("height", Nat.repr (E p.encArgs).info.height),
                      ("quality", Nat.repr p.encArgs.quality)] := by
  intro p hp
  by_cases h : 640 ≤ task.targetSize
  · simp only [SizeProcessorTs.handlerPuts, if_pos h, List.mem_cons, List.not_mem_nil,
      or_false] at hp
    rcases hp with hp | hp <;> subst hp <;> exact ⟨rfl, rfl⟩
  · simp only [SizeProcessorTs.handlerPuts, if_neg h, List.mem_cons, List.not_mem_nil,
      or_false] at hp
    subst hp
    exact ⟨rfl, rfl⟩

theorem webpOnly_metadata (E : Encoder) (pb : String) (task : Task) :
    ∀ p ∈ WebpOnlyProcessor.handlerPuts E pb task,
      p.cacheControl = "public, max-age=31536000, immutable"
      ∧ p.metadata = [("width", Nat.repr (E p.encArgs).info.width),
                      ("height", Nat.repr (E p.encArgs).info.height),
                      ("quality", Nat.repr p.encArgs.quality)] := by
  intro p hp
  simp only [WebpOnlyProcessor.handlerPuts, List.mem_cons, List.not_mem_nil, or_false] at hp
  subst hp
  exact ⟨rfl, rfl⟩

theorem imageProc_metadata (E : Encoder) (pb k : String) (W H : Nat) :
    ∀ p ∈ (ImageProcessor.processImage E pb k W H).1,
      p.cacheControl = "public, max-age=31536000, immutable"
      ∧ p.metadata = [("width", Nat.repr (E p.encArgs).info.width),
                      ("height", Nat.repr (E p.encArgs).info.height),
                      ("size", Nat.repr (E p.encArgs).data.length),
                      ("quality", Nat.repr p.encArgs.quality)] := by
  intro p hp
  simp only [ImageProcessor.processImage] at hp
  rw [chunksOf5_flatMap, List.mem_flatMap] at hp
  obtain ⟨tw, _, hmem⟩ := hp
  simp only [ImageProcessor.versionPuts, List.mem_cons, List.not_mem_nil, or_false] at hmem
  rcases hmem with hp | hp <;> subst hp <;> exact ⟨rfl, rfl⟩

theorem lambda_metadata (E : Encoder) (pb k : String) (W H : Nat) :
    ∀ p ∈ LambdaProcessor.processPuts E pb k W H,
      p.cacheControl = "public, max-age=31536000, immutable"
      ∧ p.metadata = [("width", Nat.repr (E p.encArgs).info.width),
                      ("height", Nat.repr (E p.encArgs).info.height),
                      ("size", Nat.repr (E p.encArgs).data.length),
                      ("quality", Nat.repr p.encArgs.quality)] := by
  intro p hp
  unfold LambdaProcessor.processPuts at hp
  rw [List.mem_flatMap] at hp
  obtain ⟨tw, _, hmem⟩ := hp
  simp only [List.mem_cons, List.not_mem_nil, or_false] at hmem
  rcases hmem with hp | hp <;> subst hp <;> exact ⟨rfl, rfl⟩

/-- C6 counterexample: the variants written by the size-processor
(index.mjs) carry only width, height and quality metadata tags — no byte
size tag — so the claim that every stored variant carries a byte-size tag
fails. -/
theorem C6_counterexample :
    (SizeProcessor.handlerPuts E0 "pb" task0).map (fun p => p.metadata.map Prod.fst)
      = [["width", "height", "quality"], ["width", "height", "quality"]]
    ∧ ((SizeProcessor.handlerPuts E0 "pb" task0).all
        (fun p => p.metadata.all (fun kv => !(kv.1 == "size")))) = true := by
  exact ⟨by decide, by decide⟩

/-- C6 amended: every variant written by every worker carries width, height
and quality tags serialized as decimal strings and the long-lived immutable
public cache directive; the byte-size tag is additionally present in the
two single-stage processors but absent from all three queue-driven size
processors. -/
theorem C6_amended_metadata :
    (∀ (E : Encoder) (pb : String) (task : Task), ∀ p ∈ SizeProcessor.handlerPuts E pb task,
        p.cacheControl = "public, max-age=31536000, immutable"
        ∧ p.metadata = [("width", Nat.repr (E p.encArgs).info.width),
                        ("height", Nat.repr (E p.encArgs).info.height),
                        ("quality", Nat.repr p.encArgs.quality)])
    ∧ (∀ (E : Encoder) (pb : String) (task : Task), ∀ p ∈ SizeProcessorTs.handlerPuts E pb task,
        p.cacheControl = "public, max-age=31536000, immutable"
        ∧ p.metadata = [("width", Nat.repr (E p.encArgs).info.width),
                        ("height", Nat.repr (E p.encArgs).info.height),
                        ("quality", Nat.repr p.encArgs.quality)])
    ∧ (∀ (E : Encoder) (pb : String) (task : Task), ∀ p ∈ WebpOnlyProcessor.handlerPuts E pb task,
        p.cacheControl = "public, max-age=31536000, immutable"
        ∧ p.metadata = [("width", Nat.repr (E p.encArgs).info.width),
                        ("height", Nat.repr (E p.encArgs).info.height),
                        ("quality", Nat.repr p.encArgs.quality)])
    ∧ (∀ (E : Encoder) (pb k : String) (W H : Nat),
        ∀ p ∈ (ImageProcessor.processImage E pb k W H).1,
        p.cacheControl = "public, max-age=31536000, immutable"
        ∧ p.metadata = [("width", Nat.repr (E p.encArgs).info.width),
                        ("height", Nat.repr (E p.encArgs).info.height),
                        ("size", Nat.repr (E p.encArgs).data.length),
                        ("quality", Nat.repr p.encArgs.quality)])
    ∧ (∀ (E : Encoder) (pb k : String) (W H : Nat),
        ∀ p ∈ LambdaProcessor.processPuts E pb k W H,
        p.cacheControl = "public, max-age=31536000, immutable"
        ∧ p.metadata = [("width", Nat.repr (E p.encArgs).info.width),
                        ("height", Nat.repr (E p.encArgs).info.height),
                        ("size", Nat.repr (E p.encArgs).data.length),
                        ("quality", Nat.repr p.encArgs.quality)]) :=
  ⟨sizeProc_metadata, sizeProcTs_metadata, webpOnly_metadata, imageProc_metadata,
    lambda_metadata⟩

/-- C6 witness: the amended metadata facts instantiated at concrete
inputs. -/
theorem C6_witness :
    (SizeProcessor.handlerPuts E0 "pb" task0).head!.cacheControl
      = "public, max-age=31536000, immutable"
    ∧ (ImageProcessor.processImage E0 "pb" "photo.jpg" 16 16).1.head!.metadata
      = [("width",
            Nat.repr (E0 (ImageProcessor.processImage E0 "pb" "photo.jpg" 16 16).1.head!.encArgs).info.width),
         ("height",
            Nat.repr (E0 (ImageProcessor.processImage E0 "pb" "photo.jpg" 16 16).1.head!.encArgs).info.height),
         ("size",
            Nat.repr (E0 (ImageProcessor.processImage E0 "pb" "photo.jpg" 16 16).1.head!.encArgs).data.length),
         ("quality",
            Nat.repr (ImageProcessor.processImage E0 "pb" "photo.jpg" 16 16).1.head!.encArgs.quality)] := by
  refine ⟨(C6_amended_metadata.1 E0 "pb" task0 _ ?_).1,
    (C6_amended_metadata.2.2.2.1 E0 "pb" "photo.jpg" 16 16 _ ?_).2⟩
  · decide
  · decide

end ImageOpt

namespace ImageOpt

theorem processImage_small (E : Encoder) (pb k : String) (W H : Nat) (h : W < 16) :
    ImageProcessor.processImage E pb k W H = ([], 0) := by
  simp only [ImageProcessor.processImage, filter_image_empty W h]
  rfl

/-- C7: when the source is narrower than the smallest catalog width (64 for
the dispatcher index.mjs, 16 for the single-stage processor), the
invocation enqueues or produces nothing and still returns a success value
(the dispatcher reports zero queued sizes; the single-stage processor
reports zero versions) — it does not throw. -/
theorem C7_small_image_success :
    (∀ (env : InitialProcessor.DispatchEnv) (decodeURI : String → String)
        (r : S3Record) (rest : List S3Record) (meta : Meta),
        env.fetchMeta r.bucketName (decodeURI (plusToSpace r.objectKey)) = Except.ok meta →
        meta.width < 64 →
        InitialProcessor.handler env decodeURI (r :: rest) = (Except.ok 0, []))
    ∧ (∀ (E : Encoder) (fetchMeta : String → String → Except String Meta)
        (decodeURI : String → String) (pb : String) (r : S3Record) (rest : List S3Record)
        (meta : Meta),
        fetchMeta r.bucketName (decodeURI (plusToSpace r.objectKey)) = Except.ok meta →
        meta.width < 16 →
        ImageProcessor.handler E fetchMeta decodeURI pb (r :: rest) = Except.ok ([], 0)) := by
  constructor
  · intro env decodeURI r rest meta hfetch hW
    unfold InitialProcessor.handler
    simp only [hfetch, filter_initial_empty meta.width hW]
    rfl
  · intro E fetchMeta decodeURI pb r rest meta hfetch hW
    unfold ImageProcessor.handler
    simp only [hfetch, processImage_small E pb (decodeURI (plusToSpace r.objectKey))
      meta.width meta.height hW]

/-- C7 witness: a 50 by 50 source through the dispatcher and a 10 by 10
source through the single-stage processor both succeed with zero
variants. -/
theorem C7_witness :
    InitialProcessor.handler envSmall (fun s => s) [rec0] = (Except.ok 0, [])
    ∧ ImageProcessor.handler E0 (fun _ _ => Except.ok { width := 10, height := 10 })
        (fun s => s) "pb" [rec0] = Except.ok ([], 0) := by
  exact ⟨C7_small_image_success.1 envSmall (fun s => s) rec0 []
      { width := 50, height := 50 } rfl (by decide),
    C7_small_image_success.2 E0 (fun _ _ => Except.ok { width := 10, height := 10 })
      (fun s => s) "pb" rec0 [] { width := 10, height := 10 } rfl (by decide)⟩

end ImageOpt

namespace ImageOpt

theorem sizeProc_heights (E : Encoder) (pb : String) (task : Task) :
    ∀ p ∈ SizeProcessor.handlerPuts E pb task,
      p.encArgs.height = roundHalfUp (task.targetSize * task.originalHeight)
        task.originalWidth := by
  intro p hp
  by_cases h : 640 ≤ task.targetSize
  · simp only [SizeProcessor.handlerPuts, if_pos h, List.mem_cons, List.not_mem_nil,
      or_false] at hp
    rcases hp with hp | hp <;> subst hp <;> rfl
  · simp only [SizeProcessor.handlerPuts, if_neg h, List.mem_cons, List.not_mem_nil,
      or_false] at hp
    subst hp
    rfl

theorem imageProc_heights (E : Encoder) (pb k : String) (W H : Nat) :
    ∀ p ∈ (ImageProcessor.processImage E pb k W H).1,
      p.encArgs.height = roundHalfUp (p.encArgs.width * H) W := by
  intro p hp
  simp only [ImageProcessor.processImage] at hp
  rw [chunksOf5_flatMap, List.mem_flatMap] at hp
  obtain ⟨tw, _, hmem⟩ := hp
  simp only [ImageProcessor.versionPuts, List.mem_cons, List.not_mem_nil, or_false] at hmem
  rcases hmem with hp | hp <;> subst hp <;> rfl

/-- C8: the target height handed to the resize call is the embedded
Math.round of targetSize times originalHeight over originalWidth, which
for positive width coincides exactly with the half-up rounding of the
rational targetWidth times originalHeight over originalWidth; hence the
height recorded for every variant (and, for an encoder that honors the
requested box, the stored height tag) is within 1 of that exact rational
rounding (in fact equal to it). -/
theorem C8_aspect_preservation :
    (∀ (n d : Nat), 0 < d → (roundHalfUp n d : ℤ) = round ((n : ℚ) / d))
    ∧ (∀ (E : Encoder) (pb : String) (task : Task), 0 < task.originalWidth →
        ∀ p ∈ SizeProcessor.handlerPuts E pb task,
          p.encArgs.height
            = roundHalfUp (task.targetSize * task.originalHeight) task.originalWidth
          ∧ |(p.encArgs.height : ℤ)
              - round (((task.targetSize * task.originalHeight : ℕ) : ℚ)
                  / (task.originalWidth : ℚ))| ≤ 1)
    ∧ (∀ (E : Encoder) (pb k : String) (W H : Nat), 0 < W →
        ∀ p ∈ (ImageProcessor.processImage E pb k W H).1,
          p.encArgs.height = roundHalfUp (p.encArgs.width * H) W
          ∧ |(p.encArgs.height : ℤ)
              - round (((p.encArgs.width * H : ℕ) : ℚ) / (W : ℚ))| ≤ 1)
    ∧ (∀ (E : Encoder) (pb : String) (task : Task),
        (∀ a, (E a).info.height = a.height) → 0 < task.originalWidth →
        ∀ p ∈ SizeProcessor.handlerPuts E pb task,
          ∃ h : Nat, ("height", Nat.repr h) ∈ p.metadata
            ∧ |(h : ℤ) - round (((task.targetSize * task.originalHeight : ℕ) : ℚ)
                / (task.originalWidth : ℚ))| ≤ 1) := by
  refine ⟨roundHalfUp_eq_round, ?_, ?_, ?_⟩
  · intro E pb task hW p hp
    have hh := sizeProc_heights E pb task p hp
    refine ⟨hh, ?_⟩
    rw [hh, roundHalfUp_eq_round _ _ hW, sub_self, abs_zero]
    exact zero_le_one
  · intro E pb k W H hW p hp
    have hh := imageProc_heights E pb k W H p hp
    refine ⟨hh, ?_⟩
    rw [hh, roundHalfUp_eq_round _ _ hW, sub_self, abs_zero]
    exact zero_le_one
  · intro E pb task hE hW p hp
    refine ⟨(E p.encArgs).info.height, ?_, ?_⟩
    · rw [(sizeProc_metadata E pb task p hp).2]
      exact List.mem_cons_of_mem _ (List.mem_cons_self _ _)
    · rw [hE p.encArgs, sizeProc_heights E pb task p hp,
        roundHalfUp_eq_round _ _ hW, sub_self, abs_zero]
      exact zero_le_one

/-- C8 witness: the rounding facts instantiated at concrete inputs. -/
theorem C8_witness :
    (roundHalfUp 5 2 : ℤ) = round ((5 : ℚ) / 2)
    ∧ (SizeProcessor.handlerPuts E0 "pb" task0).head!.encArgs.height
        = roundHalfUp (task0.targetSize * task0.originalHeight) task0.originalWidth
    ∧ ∃ h : Nat,
        ("height", Nat.repr h) ∈ (SizeProcessor.handlerPuts E0 "pb" task0).head!.metadata
        ∧ |(h : ℤ) - round (((task0.targetSize * task0.originalHeight : ℕ) : ℚ)
            / (task0.originalWidth : ℚ))| ≤ 1 := by
  refine ⟨C8_aspect_preservation.1 5 2 (by decide),
    (C8_aspect_preservation.2.1 E0 "pb" task0 (by decide) _ ?_).1,
    C8_aspect_preservation.2.2.2 E0 "pb" task0 (fun a => rfl) (by decide) _ ?_⟩
  · decide
  · decide

end ImageOpt

namespace ImageOpt

/-- C9: when the source key's final path segment contains no dot, the
final-extension regex does not match, the key rewrite is a no-op, and the
variant key is processed/w followed by the width and the unchanged source
key with no format extension — so for widths that get both formats the
WebP and AVIF writes of the size-processor collide at the identical key,
and every upload of the single-stage processor likewise drops its format
extension. -/
theorem C9_no_extension_collision :
    (∀ (k repl : String),
        (∀ c ∈ k.data.reverse.takeWhile (fun c => !(c == '/')), (!(c == '.')) = true) →
        jsReplaceExt k repl = k)
    ∧ (∀ (E : Encoder) (pb : String) (task : Task),
        (∀ c ∈ task.sourceKey.data.reverse.takeWhile (fun c => !(c == '/')),
            (!(c == '.')) = true) →
        640 ≤ task.targetSize →
        (SizeProcessor.handlerPuts E pb task).map (fun p => p.key)
          = ["processed/w" ++ Nat.repr task.targetSize ++ "/" ++ task.sourceKey,
             "processed/w" ++ Nat.repr task.targetSize ++ "/" ++ task.sourceKey])
    ∧ (∀ (E : Encoder) (pb k : String) (W H : Nat),
        (∀ c ∈ k.data.reverse.takeWhile (fun c => !(c == '/')), (!(c == '.')) = true) →
        ∀ p ∈ (ImageProcessor.processImage E pb k W H).1,
          p.key = "processed/w" ++ Nat.repr p.encArgs.width ++ "/" ++ k) := by
  refine ⟨jsReplaceExt_noExt, ?_, ?_⟩
  · intro E pb task hnod h640
    simp only [SizeProcessor.handlerPuts, if_pos h640, List.map_cons, List.map_nil]
    rw [jsReplaceExt_noExt task.sourceKey ".webp" hnod,
      jsReplaceExt_noExt task.sourceKey ".avif" hnod]
  · intro E pb k W H hnod p hp
    rw [imageProc_keys E pb k W H p hp,
      jsReplaceExt_noExt k ("." ++ p.encArgs.fmt) hnod]

/-- C9 witness: a source key without extension through the size-processor
at width 640: both variant keys collide. -/
theorem C9_witness :
    jsReplaceExt "images/photo" ".webp" = "images/photo"
    ∧ (SizeProcessor.handlerPuts E0 "pb" taskNoExt).map (fun p => p.key)
      = ["processed/w" ++ Nat.repr taskNoExt.targetSize ++ "/" ++ taskNoExt.sourceKey,
         "processed/w" ++ Nat.repr taskNoExt.targetSize ++ "/" ++ taskNoExt.sourceKey] := by
  exact ⟨C9_no_extension_collision.1 "images/photo" ".webp" (by decide),
    C9_no_extension_collision.2.1 E0 "pb" taskNoExt (by decide) (by decide)⟩

end ImageOpt

namespace ImageOpt

/-- C10: every handler reads only Records[0] of its trigger event; the
result of the dispatcher (index.mjs and index.ts), the size-processor and
the single-stage processor on an event with a first record and any tail is
identical to the result on any other tail — records after the first are
silently ignored and contribute no tasks and no variants. -/
theorem C10_first_record_only :
    (∀ (env : InitialProcessor.DispatchEnv) (decodeURI : String → String) (r : S3Record)
        (rest₁ rest₂ : List S3Record),
        InitialProcessor.handler env decodeURI (r :: rest₁)
          = InitialProcessor.handler env decodeURI (r :: rest₂))
    ∧ (∀ (env : InitialProcessor.DispatchEnv) (decodeURI : String → String) (r : S3Record)
        (rest₁ rest₂ : List S3Record),
        InitialProcessorTs.handler env decodeURI (r :: rest₁)
          = InitialProcessorTs.handler env decodeURI (r :: rest₂))
    ∧ (∀ (E : Encoder) (fetchBody : String → String → Except String Unit) (pb : String)
        (t : Task) (rest₁ rest₂ : List Task),
        SizeProcessor.handler E fetchBody pb (t :: rest₁)
          = SizeProcessor.handler E fetchBody pb (t :: rest₂))
    ∧ (∀ (E : Encoder) (fetchMeta : String → String → Except String Meta)
        (decodeURI : String → String) (pb : String) (r : S3Record)
        (rest₁ rest₂ : List S3Record),
        ImageProcessor.handler E fetchMeta decodeURI pb (r :: rest₁)
          = ImageProcessor.handler E fetchMeta decodeURI pb (r :: rest₂)) := by
  exact ⟨fun _ _ _ _ _ => rfl, fun _ _ _ _ _ => rfl, fun _ _ _ _ _ _ => rfl,
    fun _ _ _ _ _ _ _ => rfl⟩

end ImageOpt
